import Mathlib

/-
Verification of the input subsystem of LumixEngine
(src/src/engine/input_system.cpp).

The C++ `InputSystemImpl` is shallowly embedded as a Lean structure holding
the fields that the core logic reads or writes.  Heap-allocated `Device*`
pointers are modelled as natural-number identifiers: distinct allocations
yield distinct identifiers, and the two built-in devices created by the
constructor receive the fixed identifiers 0 (keyboard) and 1 (mouse).
`LUMIX_DELETE` calls performed by `update` are modelled by appending the
released identifier to a ghost log (`released_log`), since the embedding has
no heap; a double free shows up as a repeated entry in the log.
Assertion failures (`ASSERT`) abort the program, so fallible operations
return `Option`: `none` is the assertion firing.
-/

set_option linter.unusedVariables false

namespace Lumix

/-- Event kinds used by input_system.cpp: `DEVICE_ADDED` is emitted by
`addDevice`, `DEVICE_REMOVED` by `removeDevice`.  Further kinds exist in
the header (not part of src/) but are never constructed in this file. -/
inductive EventType where
  | DEVICE_ADDED
  | DEVICE_REMOVED
  deriving DecidableEq, Repr

/-- An input event: a kind tag and a non-owning reference to the
originating device, as in `InputSystem::Event`. -/
structure Event where
  type : EventType
  device : Nat
  deriving DecidableEq, Repr

/-- A 2D cursor position.  The C++ `Vec2` holds two floats; the input
system only stores and returns the value without any arithmetic, so the
coordinates are carried as integers. -/
structure Vec2 where
  x : Int
  y : Int
  deriving DecidableEq, Repr

/-- Identifier of the keyboard device allocated by the constructor
(`m_keyboard_device`, pushed first at line 45). -/
def keyboard_device : Nat := 0

/-- Identifier of the mouse device allocated by the constructor
(`m_mouse_device`, pushed second at line 46). -/
def mouse_device : Nat := 1

/-- The state of `InputSystemImpl`: the fields of the C++ struct that the
core logic touches (the engine and allocator references carry no state in
the embedding), plus the ghost `released_log` recording every device
passed to `LUMIX_DELETE` by `update`. -/
structure InputSystemImpl where
  m_keyboard_device : Nat
  m_mouse_device : Nat
  m_events : List Event
  m_is_enabled : Bool
  m_cursor_pos : Vec2
  m_devices : List Nat
  m_to_remove : List Nat
  released_log : List Nat
  deriving DecidableEq, Repr

namespace InputSystemImpl

/-- The constructor `InputSystemImpl::InputSystemImpl`: allocates the two
built-in devices and pushes the keyboard then the mouse into `m_devices`.
`m_cursor_pos` is not initialized by the constructor, so the initial value
`c0` is a parameter. -/
def new (c0 : Vec2) : InputSystemImpl :=
  { m_keyboard_device := keyboard_device
  , m_mouse_device := mouse_device
  , m_events := []
  , m_is_enabled := false
  , m_cursor_pos := c0
  , m_devices := [keyboard_device, mouse_device]
  , m_to_remove := []
  , released_log := [] }

/-- `injectEvent`: pushes the event onto `m_events`. -/
def injectEvent (s : InputSystemImpl) (event : Event) : InputSystemImpl :=
  { s with m_events := s.m_events ++ [event] }

/-- `addDevice`: pushes the device onto `m_devices`, then injects a
`DEVICE_ADDED` event referencing it. -/
def addDevice (s : InputSystemImpl) (device : Nat) : InputSystemImpl :=
  injectEvent { s with m_devices := s.m_devices ++ [device] }
    { type := EventType.DEVICE_ADDED, device := device }

/-- `removeDevice`: asserts the device is neither built-in (modelled as
`none`), then pushes it onto `m_to_remove` and injects a `DEVICE_REMOVED`
event referencing it.  The device is not erased from `m_devices` here. -/
def removeDevice (s : InputSystemImpl) (device : Nat) : Option InputSystemImpl :=
  if device = s.m_keyboard_device then none
  else if device = s.m_mouse_device then none
  else some (injectEvent { s with m_to_remove := s.m_to_remove ++ [device] }
    { type := EventType.DEVICE_REMOVED, device := device })

/-- `update(dt)`: for each device in `m_to_remove`, erases it from
`m_devices` (`Array::eraseItem` removes the first occurrence, a no-op when
absent) and deletes it (logged in `released_log`); then clears `m_events`;
then calls `device->update(dt)` on every remaining device and
`ControllerDevice::frame(dt)`.  The bodies of external devices' `update`
and of `ControllerDevice::frame` are outside this file (the built-in
mouse/keyboard updates are no-ops); the events they inject during this
call are the parameter `produced`.  Note the source never clears
`m_to_remove`. -/
def update (s : InputSystemImpl) (dt : Int) (produced : List Event) : InputSystemImpl :=
  { s with m_devices := s.m_to_remove.foldl (fun ds d => ds.erase d) s.m_devices
         , released_log := s.released_log ++ s.m_to_remove
         , m_events := produced }

/-- `getEventsCount`: size of `m_events`. -/
def getEventsCount (s : InputSystemImpl) : Nat := s.m_events.length

/-- `getEvents`: `nullptr` when `m_events` is empty, otherwise the
contiguous view starting at `&m_events[0]`, modelled as the list. -/
def getEvents (s : InputSystemImpl) : Option (List Event) :=
  if s.m_events.isEmpty then none else some s.m_events

/-- `getCursorPosition`: returns `m_cursor_pos`. -/
def getCursorPosition (s : InputSystemImpl) : Vec2 := s.m_cursor_pos

/-- `setCursorPosition`: stores the position into `m_cursor_pos`. -/
def setCursorPosition (s : InputSystemImpl) (pos : Vec2) : InputSystemImpl :=
  { s with m_cursor_pos := pos }

/-- `getDevicesCount`: size of `m_devices`. -/
def getDevicesCount (s : InputSystemImpl) : Nat := s.m_devices.length

/-- `getDevice(index)`: `m_devices[index]`.  Lumix `Array::operator[]`
asserts `0 <= index < size`; the out-of-range branch is modelled as
`none`. -/
def getDevice (s : InputSystemImpl) (index : Int) : Option Nat :=
  if h : 0 ≤ index ∧ index.toNat < s.m_devices.length then
    some (s.m_devices.get ⟨index.toNat, h.2⟩)
  else none

/-- `enable`: stores the flag into `m_is_enabled`. -/
def enable (s : InputSystemImpl) (enabled : Bool) : InputSystemImpl :=
  { s with m_is_enabled := enabled }

/-- `getMouseDevice`. -/
def getMouseDevice (s : InputSystemImpl) : Nat := s.m_mouse_device

/-- `getKeyboardDevice`. -/
def getKeyboardDevice (s : InputSystemImpl) : Nat := s.m_keyboard_device

end InputSystemImpl

/-- One public-interface call on the input system.  `update` carries the
events injected by device updates and controller polling during that
call. -/
inductive Op where
  | addDevice (d : Nat)
  | removeDevice (d : Nat)
  | injectEvent (e : Event)
  | setCursorPosition (p : Vec2)
  | enable (b : Bool)
  | update (dt : Int) (produced : List Event)
  deriving DecidableEq, Repr

/-- Executes one call; `none` when an assertion fires (program aborts). -/
def step (s : InputSystemImpl) : Op → Option InputSystemImpl
  | Op.addDevice d => some (s.addDevice d)
  | Op.removeDevice d => s.removeDevice d
  | Op.injectEvent e => some (s.injectEvent e)
  | Op.setCursorPosition p => some (s.setCursorPosition p)
  | Op.enable b => some (s.enable b)
  | Op.update dt produced => some (s.update dt produced)

/-- Executes a sequence of calls, stopping at the first assertion
failure. -/
def runOps (s : InputSystemImpl) : List Op → Option InputSystemImpl
  | [] => some s
  | op :: ops =>
    match step s op with
    | none => none
    | some s1 => runOps s1 ops

/-- The state reached from a fresh system (cursor `⟨0, 0⟩`) by
`addDevice 5`, `removeDevice 5`, `update`: the gamepad is gone from
`m_devices` and was released once, but `m_to_remove` still holds it. -/
def traceState : InputSystemImpl :=
  { m_keyboard_device := 0, m_mouse_device := 1, m_events := [], m_is_enabled := false, m_cursor_pos := ⟨0, 0⟩, m_devices := [0, 1], m_to_remove := [5], released_log := [5] }

/-- The identifiers passed to `addDevice` during a run, in call order.
Prefixed with the two built-ins pushed by the constructor, this is the
registration sequence of the run. -/
def registrations : List Op → List Nat
  | [] => []
  | Op.addDevice d :: ops => d :: registrations ops
  | _ :: ops => registrations ops

/-- Structural invariant maintained by every call: the built-in
identifiers stored in the fields are the ones the constructor allocated,
they occupy the first two positions of `m_devices`, and `m_to_remove`
never contains a built-in. -/
def Inv (s : InputSystemImpl) : Prop :=
  s.m_keyboard_device = keyboard_device ∧
  s.m_mouse_device = mouse_device ∧
  (∃ rest, s.m_devices = s.m_keyboard_device :: s.m_mouse_device :: rest) ∧
  ∀ d ∈ s.m_to_remove, d ≠ s.m_keyboard_device ∧ d ≠ s.m_mouse_device

lemma inv_new (c0 : Vec2) : Inv (InputSystemImpl.new c0) := by
  refine ⟨rfl, rfl, ⟨[], rfl⟩, ?_⟩
  intro d hd
  simp [InputSystemImpl.new] at hd

lemma foldl_erase_cons₂ (l : List Nat) :
    ∀ (a b : Nat) (rest : List Nat), (∀ d ∈ l, d ≠ a ∧ d ≠ b) →
      l.foldl (fun ds d => ds.erase d) (a :: b :: rest)
        = a :: b :: l.foldl (fun ds d => ds.erase d) rest := by
  induction l with
  | nil => intro a b rest _; rfl
  | cons x t ih =>
    intro a b rest h
    have hx := h x (List.mem_cons_self x t)
    have ha : a ≠ x := Ne.symm hx.1
    have hb : b ≠ x := Ne.symm hx.2
    simp only [List.foldl_cons, List.erase_cons, if_neg, beq_iff_eq, ha, hb,
      ite_false]
    exact ih a b (rest.erase x) fun d hd => h d (List.mem_cons_of_mem x hd)

lemma inv_step {s s1 : InputSystemImpl} {op : Op} (hs : Inv s)
    (h : step s op = some s1) : Inv s1 := by
  obtain ⟨hkb, hm, ⟨rest, hdev⟩, hrem⟩ := hs
  cases op with
  | addDevice d =>
    simp only [step, InputSystemImpl.addDevice, InputSystemImpl.injectEvent,
      Option.some.injEq] at h
    subst h
    exact ⟨hkb, hm, ⟨rest ++ [d], by simp [hdev]⟩, hrem⟩
  | removeDevice d =>
    simp only [step, InputSystemImpl.removeDevice] at h
    by_cases h1 : d = s.m_keyboard_device
    · simp [h1] at h
    · by_cases h2 : d = s.m_mouse_device
      · simp [h1, h2] at h
      · simp only [h1, h2, if_false, InputSystemImpl.injectEvent,
          Option.some.injEq] at h
        subst h
        refine ⟨hkb, hm, ⟨rest, hdev⟩, ?_⟩
        intro e he
        simp only [List.mem_append, List.mem_singleton] at he
        cases he with
        | inl he => exact hrem e he
        | inr he => subst he; exact ⟨h1, h2⟩
  | injectEvent e =>
    simp only [step, InputSystemImpl.injectEvent, Option.some.injEq] at h
    subst h
    exact ⟨hkb, hm, ⟨rest, hdev⟩, hrem⟩
  | setCursorPosition p =>
    simp only [step, InputSystemImpl.setCursorPosition, Option.some.injEq] at h
    subst h
    exact ⟨hkb, hm, ⟨rest, hdev⟩, hrem⟩
  | enable b =>
    simp only [step, InputSystemImpl.enable, Option.some.injEq] at h
    subst h
    exact ⟨hkb, hm, ⟨rest, hdev⟩, hrem⟩
  | update dt produced =>
    simp only [step, InputSystemImpl.update, Option.some.injEq] at h
    subst h
    refine ⟨hkb, hm, ?_, hrem⟩
    refine ⟨s.m_to_remove.foldl (fun ds d => ds.erase d) rest, ?_⟩
    simp only [hdev]
    exact foldl_erase_cons₂ s.m_to_remove _ _ rest hrem

lemma inv_runOps {s s1 : InputSystemImpl} {ops : List Op} (hs : Inv s)
    (h : runOps s ops = some s1) : Inv s1 := by
  induction ops generalizing s with
  | nil =>
    simp only [runOps, Option.some.injEq] at h
    exact h ▸ hs
  | cons op ops ih =>
    simp only [runOps] at h
    cases hstep : step s op with
    | none => rw [hstep] at h; exact absurd h (by simp)
    | some s2 =>
      rw [hstep] at h
      exact ih (inv_step hs hstep) h

lemma foldl_erase_sublist (l : List Nat) :
    ∀ ds : List Nat, List.Sublist (l.foldl (fun ds d => ds.erase d) ds) ds := by
  induction l with
  | nil => intro ds; exact List.Sublist.refl ds
  | cons x t ih =>
    intro ds
    exact (ih (ds.erase x)).trans (List.erase_sublist x ds)

lemma runOps_devices_sublist :
    ∀ (ops : List Op) (s s1 : InputSystemImpl), runOps s ops = some s1 →
      List.Sublist s1.m_devices (s.m_devices ++ registrations ops) := by
  intro ops
  induction ops with
  | nil =>
    intro s s1 h
    simp only [runOps, Option.some.injEq] at h
    subst h
    simp [registrations]
  | cons op t ih =>
    intro s s1 h
    simp only [runOps] at h
    cases hstep : step s op with
    | none => rw [hstep] at h; exact absurd h (by simp)
    | some s2 =>
      rw [hstep] at h
      have h2 := ih s2 s1 h
      cases op with
      | addDevice d =>
        simp only [step, Option.some.injEq] at hstep
        subst hstep
        simpa [registrations, InputSystemImpl.addDevice,
          InputSystemImpl.injectEvent, List.append_assoc] using h2
      | removeDevice d =>
        simp only [step, InputSystemImpl.removeDevice] at hstep
        by_cases h1 : d = s.m_keyboard_device
        · simp [h1] at hstep
        · by_cases hm2 : d = s.m_mouse_device
          · simp [h1, hm2] at hstep
          · simp only [h1, hm2, if_false, InputSystemImpl.injectEvent,
              Option.some.injEq] at hstep
            subst hstep
            simpa [registrations] using h2
      | injectEvent e =>
        simp only [step, Option.some.injEq] at hstep
        subst hstep
        simpa [registrations, InputSystemImpl.injectEvent] using h2
      | setCursorPosition p =>
        simp only [step, Option.some.injEq] at hstep
        subst hstep
        simpa [registrations, InputSystemImpl.setCursorPosition] using h2
      | enable b =>
        simp only [step, Option.some.injEq] at hstep
        subst hstep
        simpa [registrations, InputSystemImpl.enable] using h2
      | update dt produced =>
        simp only [step, Option.some.injEq] at hstep
        subst hstep
        refine h2.trans ?_
        simp only [registrations]
        exact List.Sublist.append (foldl_erase_sublist _ _) (List.Sublist.refl _)

/-- C1: for every sequence of calls on a constructed input system, the
built-in keyboard and mouse devices remain present in `m_devices`, and
`removeDevice` on either built-in hits the assertion (modelled as `none`)
instead of removing it. -/
theorem builtins_never_removed (c0 : Vec2) (ops : List Op) (s : InputSystemImpl)
    (h : runOps (InputSystemImpl.new c0) ops = some s) :
    keyboard_device ∈ s.m_devices ∧ mouse_device ∈ s.m_devices ∧
    s.removeDevice keyboard_device = none ∧ s.removeDevice mouse_device = none := by
  obtain ⟨hkb, hm, ⟨rest, hdev⟩, _⟩ := inv_runOps (inv_new c0) h
  refine ⟨?_, ?_, ?_, ?_⟩
  · rw [hdev, hkb]; exact List.mem_cons_self _ _
  · rw [hdev, hm]; exact List.mem_cons_of_mem _ (List.mem_cons_self _ _)
  · simp [InputSystemImpl.removeDevice, hkb]
  · simp [InputSystemImpl.removeDevice, hkb, hm, keyboard_device, mouse_device]

/-- Closed instance of `builtins_never_removed` after an add/remove/update
round trip. -/
theorem builtins_never_removed_witness :
    keyboard_device ∈ traceState.m_devices ∧
    mouse_device ∈ traceState.m_devices ∧
    traceState.removeDevice keyboard_device = none ∧
    traceState.removeDevice mouse_device = none :=
  builtins_never_removed ⟨0, 0⟩ [Op.addDevice 5, Op.removeDevice 5, Op.update 0 []]
    traceState (by decide)

/-- C6: in every reachable state the keyboard is at index 0 and the mouse
at index 1 of the device listing, and the listing is in registration
order: `m_devices` is an order-preserving subsequence of the registration
sequence (built-ins first, then the `addDevice` arguments in call
order). -/
theorem builtin_devices_first (c0 : Vec2) (ops : List Op) (s : InputSystemImpl)
    (h : runOps (InputSystemImpl.new c0) ops = some s) :
    s.getDevice 0 = some s.m_keyboard_device ∧
    s.getDevice 1 = some s.m_mouse_device ∧
    (∃ rest, s.m_devices = s.m_keyboard_device :: s.m_mouse_device :: rest) ∧
    List.Sublist s.m_devices (keyboard_device :: mouse_device :: registrations ops) := by
  obtain ⟨hkb, hm, ⟨rest, hdev⟩, _⟩ := inv_runOps (inv_new c0) h
  refine ⟨?_, ?_, ⟨rest, hdev⟩, ?_⟩
  · simp [InputSystemImpl.getDevice, hdev]
  · simp [InputSystemImpl.getDevice, hdev]
  · have hsub := runOps_devices_sublist ops (InputSystemImpl.new c0) s h
    simpa [InputSystemImpl.new] using hsub

/-- Closed instance of `builtin_devices_first` after an add/remove/update
round trip. -/
theorem builtin_devices_first_witness :
    traceState.getDevice 0 = some traceState.m_keyboard_device ∧
    traceState.getDevice 1 = some traceState.m_mouse_device ∧
    (∃ rest, traceState.m_devices
      = traceState.m_keyboard_device :: traceState.m_mouse_device :: rest) ∧
    List.Sublist traceState.m_devices (keyboard_device :: mouse_device
      :: registrations [Op.addDevice 5, Op.removeDevice 5, Op.update 0 []]) :=
  builtin_devices_first ⟨0, 0⟩
    [Op.addDevice 5, Op.removeDevice 5, Op.update 0 []] traceState (by decide)

/-- C2: the source never clears `m_to_remove`, so a device finalized by
one `update` is released again by every later `update`: after
add 5, remove 5, update, update the release log holds device 5 twice
(a double free of the gamepad in the C++ code). -/
theorem update_rereleases_removed_device :
    (runOps (InputSystemImpl.new ⟨0, 0⟩)
        [Op.addDevice 5, Op.removeDevice 5, Op.update 0 [], Op.update 0 []]).map
      InputSystemImpl.released_log = some [5, 5] := by decide

lemma not_mem_foldl_erase {d : Nat} (l : List Nat) :
    ∀ {ds : List Nat}, d ∉ ds → d ∉ l.foldl (fun ds x => ds.erase x) ds := by
  induction l with
  | nil => intro ds hd; exact hd
  | cons x t ih =>
    intro ds hd
    exact ih fun hmem => hd (List.mem_of_mem_erase hmem)

lemma mem_removed_not_mem_foldl {d : Nat} (l : List Nat) :
    ∀ {ds : List Nat}, d ∈ l → ds.count d ≤ 1 →
      d ∉ l.foldl (fun ds x => ds.erase x) ds := by
  induction l with
  | nil => intro ds h; cases h
  | cons x t ih =>
    intro ds hmem hcount
    simp only [List.foldl_cons]
    by_cases hdx : d = x
    · subst hdx
      apply not_mem_foldl_erase
      rw [← List.count_pos_iff, List.count_erase_self]
      omega
    · have hmem2 : d ∈ t := by
        cases List.mem_cons.mp hmem with
        | inl h => exact absurd h hdx
        | inr h => exact h
      have hcount2 : (ds.erase x).count d ≤ 1 :=
        le_trans (List.Sublist.count_le (List.erase_sublist x ds) d) hcount
      exact ih hmem2 hcount2

lemma getDevice_mem {s : InputSystemImpl} {i : Int} {d : Nat}
    (h : s.getDevice i = some d) : d ∈ s.m_devices := by
  unfold InputSystemImpl.getDevice at h
  split at h
  · cases h
    exact List.get_mem _ _ _
  · cases h

/-- C3: removing a non-built-in device `d` present (once) in the active
set appends a `DEVICE_REMOVED` event at once, leaves the device count and
the enumeration unchanged, and the next `update` erases `d` from the
count and from every enumeration slot. -/
theorem removeDevice_deferred (s : InputSystemImpl) (d : Nat) (dt : Int)
    (produced : List Event)
    (hkb : d ≠ s.m_keyboard_device) (hm : d ≠ s.m_mouse_device)
    (hcount : s.m_devices.count d = 1) :
    ∃ s1, s.removeDevice d = some s1 ∧
      s1.m_events = s.m_events ++ [{ type := EventType.DEVICE_REMOVED, device := d }] ∧
      s1.getDevicesCount = s.getDevicesCount ∧
      s1.m_devices = s.m_devices ∧
      d ∈ s1.m_devices ∧
      d ∉ (s1.update dt produced).m_devices ∧
      ∀ i : Int, (s1.update dt produced).getDevice i ≠ some d := by
  have hmem : d ∈ s.m_devices := List.count_pos_iff.mp (by omega)
  have hnot : d ∉ ((InputSystemImpl.injectEvent
      { s with m_to_remove := s.m_to_remove ++ [d] }
      { type := EventType.DEVICE_REMOVED, device := d }).update dt
      produced).m_devices := by
    apply mem_removed_not_mem_foldl
    · exact List.mem_append_right _ (List.mem_singleton_self d)
    · show s.m_devices.count d ≤ 1
      omega
  refine ⟨InputSystemImpl.injectEvent { s with m_to_remove := s.m_to_remove ++ [d] }
    { type := EventType.DEVICE_REMOVED, device := d }, ?_, rfl, rfl, rfl, hmem, hnot, ?_⟩
  · simp [InputSystemImpl.removeDevice, hkb, hm]
  · intro i hi
    exact hnot (getDevice_mem hi)

/-- Closed instance of `removeDevice_deferred`: removing the gamepad from
a fresh system with a gamepad added. -/
theorem removeDevice_deferred_witness :
    ∃ s1, ((InputSystemImpl.new ⟨0, 0⟩).addDevice 5).removeDevice 5 = some s1 ∧
      s1.m_events = ((InputSystemImpl.new ⟨0, 0⟩).addDevice 5).m_events
        ++ [{ type := EventType.DEVICE_REMOVED, device := 5 }] ∧
      s1.getDevicesCount = ((InputSystemImpl.new ⟨0, 0⟩).addDevice 5).getDevicesCount ∧
      s1.m_devices = ((InputSystemImpl.new ⟨0, 0⟩).addDevice 5).m_devices ∧
      5 ∈ s1.m_devices ∧
      5 ∉ (s1.update 0 []).m_devices ∧
      ∀ i : Int, (s1.update 0 []).getDevice i ≠ some 5 :=
  removeDevice_deferred ((InputSystemImpl.new ⟨0, 0⟩).addDevice 5) 5 0 []
    (by decide) (by decide) (by decide)

/-- C4: `update` resets the event queue exactly once before devices
produce: afterwards the queue holds exactly the events of that call, any
previously injected event does not survive, and with no production the
queue is empty. -/
theorem update_resets_event_queue (s : InputSystemImpl) (dt : Int)
    (produced : List Event) (e : Event) :
    (s.update dt produced).m_events = produced ∧
    (s.injectEvent e).update dt produced = s.update dt produced ∧
    (s.update dt []).getEventsCount = 0 :=
  ⟨rfl, rfl, rfl⟩

/-- C5: `addDevice` grows the device count by one, puts the new device at
the tail of the enumeration, and appends a `DEVICE_ADDED` event. -/
theorem addDevice_appends (s : InputSystemImpl) (d : Nat) :
    (s.addDevice d).getDevicesCount = s.getDevicesCount + 1 ∧
    (s.addDevice d).m_devices = s.m_devices ++ [d] ∧
    (s.addDevice d).getDevice (s.getDevicesCount : Int) = some d ∧
    (s.addDevice d).m_events
      = s.m_events ++ [{ type := EventType.DEVICE_ADDED, device := d }] := by
  refine ⟨?_, rfl, ?_, rfl⟩
  · simp [InputSystemImpl.addDevice, InputSystemImpl.injectEvent,
      InputSystemImpl.getDevicesCount]
  · simp only [InputSystemImpl.getDevice, InputSystemImpl.addDevice,
      InputSystemImpl.injectEvent, InputSystemImpl.getDevicesCount]
    have hlen : (s.getDevicesCount : Int).toNat < (s.m_devices ++ [d]).length := by
      simp [InputSystemImpl.getDevicesCount]
    rw [dif_pos ⟨Int.ofNat_nonneg _, hlen⟩]
    simp [List.getElem_append_right, InputSystemImpl.getDevicesCount]

/-- C7: `getEvents` is `none` exactly when the queue is empty, and when
the count is positive it is the full queue, whose length is the count. -/
theorem getEvents_matches_count (s : InputSystemImpl) :
    (s.getEventsCount = 0 → s.getEvents = none) ∧
    (0 < s.getEventsCount →
      s.getEvents = some s.m_events ∧ s.m_events.length = s.getEventsCount) := by
  unfold InputSystemImpl.getEvents InputSystemImpl.getEventsCount
  cases s.m_events with
  | nil => simp
  | cons e t => simp

/-- Closed instance of `getEvents_matches_count` on a queue holding the
`DEVICE_ADDED` event of a freshly added gamepad. -/
theorem getEvents_matches_count_witness :
    ((InputSystemImpl.new ⟨0, 0⟩).addDevice 5).getEvents
        = some ((InputSystemImpl.new ⟨0, 0⟩).addDevice 5).m_events ∧
    ((InputSystemImpl.new ⟨0, 0⟩).addDevice 5).m_events.length
        = ((InputSystemImpl.new ⟨0, 0⟩).addDevice 5).getEventsCount :=
  (getEvents_matches_count ((InputSystemImpl.new ⟨0, 0⟩).addDevice 5)).2 (by decide)

lemma step_cursor {s s1 : InputSystemImpl} {op : Op}
    (hop : ∀ q, op ≠ Op.setCursorPosition q)
    (h : step s op = some s1) : s1.m_cursor_pos = s.m_cursor_pos := by
  cases op with
  | setCursorPosition p => exact absurd rfl (hop p)
  | addDevice d =>
    simp only [step, InputSystemImpl.addDevice, InputSystemImpl.injectEvent,
      Option.some.injEq] at h
    subst h; rfl
  | removeDevice d =>
    simp only [step, InputSystemImpl.removeDevice] at h
    by_cases h1 : d = s.m_keyboard_device
    · simp [h1] at h
    · by_cases h2 : d = s.m_mouse_device
      · simp [h1, h2] at h
      · simp only [h1, h2, if_false, InputSystemImpl.injectEvent,
          Option.some.injEq] at h
        subst h; rfl
  | injectEvent e =>
    simp only [step, InputSystemImpl.injectEvent, Option.some.injEq] at h
    subst h; rfl
  | enable b =>
    simp only [step, InputSystemImpl.enable, Option.some.injEq] at h
    subst h; rfl
  | update dt produced =>
    simp only [step, InputSystemImpl.update, Option.some.injEq] at h
    subst h; rfl

/-- C8: after `setCursorPosition p`, any sequence of calls that does not
set the cursor again leaves `getCursorPosition` returning exactly `p`. -/
theorem cursor_roundtrip (s : InputSystemImpl) (p : Vec2) (ops : List Op)
    (s1 : InputSystemImpl)
    (hops : ∀ q, Op.setCursorPosition q ∉ ops)
    (h : runOps (s.setCursorPosition p) ops = some s1) :
    s1.getCursorPosition = p := by
  have key : ∀ (l : List Op) (s0 t : InputSystemImpl),
      (∀ q, Op.setCursorPosition q ∉ l) → s0.m_cursor_pos = p →
      runOps s0 l = some t → t.m_cursor_pos = p := by
    intro l
    induction l with
    | nil =>
      intro s0 t _ hc hr
      simp only [runOps, Option.some.injEq] at hr
      exact hr ▸ hc
    | cons op rest ih =>
      intro s0 t hl hc hr
      simp only [runOps] at hr
      cases hstep : step s0 op with
      | none => rw [hstep] at hr; exact absurd hr (by simp)
      | some s2 =>
        rw [hstep] at hr
        have hop : ∀ q, op ≠ Op.setCursorPosition q := by
          intro q heq
          exact hl q (heq ▸ List.mem_cons_self op rest)
        have hc2 : s2.m_cursor_pos = p := (step_cursor hop hstep).trans hc
        exact ih s2 t (fun q hq => hl q (List.mem_cons_of_mem _ hq)) hc2 hr
  exact key ops (s.setCursorPosition p) s1 hops rfl h

/-- Closed instance of `cursor_roundtrip`: the cursor survives an
`addDevice` call. -/
theorem cursor_roundtrip_witness :
    (((InputSystemImpl.new ⟨0, 0⟩).setCursorPosition ⟨2, 3⟩).addDevice 5).getCursorPosition
      = ⟨2, 3⟩ :=
  cursor_roundtrip (InputSystemImpl.new ⟨0, 0⟩) ⟨2, 3⟩ [Op.addDevice 5]
    (((InputSystemImpl.new ⟨0, 0⟩).setCursorPosition ⟨2, 3⟩).addDevice 5)
    (by intro q; simp) (by decide)

/-- C9: `enable` writes only `m_is_enabled`, and the flag is consulted by
no update or query operation: a state with the flag flipped yields the
same update result (up to the flag itself) and identical query
answers. -/
theorem enable_behaviour_invisible (s : InputSystemImpl) (b : Bool) (dt : Int)
    (produced : List Event) (i : Int) :
    s.enable b = { s with m_is_enabled := b } ∧
    (s.enable b).update dt produced = (s.update dt produced).enable b ∧
    (s.enable b).getDevicesCount = s.getDevicesCount ∧
    (s.enable b).getDevice i = s.getDevice i ∧
    (s.enable b).getEvents = s.getEvents ∧
    (s.enable b).getEventsCount = s.getEventsCount ∧
    (s.enable b).getCursorPosition = s.getCursorPosition :=
  ⟨rfl, rfl, rfl, rfl, rfl, rfl, rfl⟩

/-- C10: `getDevice` succeeds exactly when `0 ≤ index < getDevicesCount`,
and then yields the entry of `m_devices` at that position. -/
theorem getDevice_in_bounds (s : InputSystemImpl) (i : Int) :
    ((s.getDevice i).isSome ↔ 0 ≤ i ∧ i < (s.getDevicesCount : Int)) ∧
    ∀ h : 0 ≤ i ∧ i.toNat < s.m_devices.length,
      s.getDevice i = some (s.m_devices.get ⟨i.toNat, h.2⟩) := by
  constructor
  · unfold InputSystemImpl.getDevice InputSystemImpl.getDevicesCount
    split
    case isTrue h => simp only [Option.isSome_some, true_iff]; omega
    case isFalse h =>
      have hno : ¬(0 ≤ i ∧ i < (s.m_devices.length : Int)) := fun hc => h (by omega)
      simp [hno]
  · intro h
    unfold InputSystemImpl.getDevice
    rw [dif_pos h]

/-- Closed instance of `getDevice_in_bounds` at index 0 of a fresh
system. -/
theorem getDevice_in_bounds_witness :
    ((InputSystemImpl.new ⟨0, 0⟩).getDevice 0).isSome = true ∧
    (InputSystemImpl.new ⟨0, 0⟩).getDevice 0 = some 0 :=
  ⟨((getDevice_in_bounds (InputSystemImpl.new ⟨0, 0⟩) 0).1).mpr ⟨by decide, by decide⟩,
   (getDevice_in_bounds (InputSystemImpl.new ⟨0, 0⟩) 0).2 ⟨by decide, by decide⟩⟩

end Lumix
